import Mathlib

/-!
Verification of the `elm-pwa` repository against its specification.

The development shallowly embeds, in Lean 4:

* the generated service worker's fetch-routing decision tree, activate-phase
  cache cleanup, and the network-first tier's cache interaction
  (translated from the `SW_TEMPLATE` in the repository's build module);
* the worker-source generator `generateSW`, including the semantics of
  `JSON.stringify(obj, null, 2)` on the embedded config object;
* the event-bridge VAPID-key base64url decoding (`subscribePush` case);
* the Elm-side `Pwa.decodeEvent` JSON decoder.

Conventions of the embedding: JavaScript strings are modelled as Lean
`String`s (or `List Char` where per-character processing matters); promise
resolution/rejection of `fetch` is modelled as `Option Response`; the
browser cache store is an association list keyed by request URL; JavaScript
`undefined` for an optional config field is `Option.none`.
-/

namespace ElmPwa

/-! ### Service worker model (SW_TEMPLATE fetch and activate handlers) -/

/-- A network response. Only the `ok` flag steers the worker's logic
(`response.ok`); `body` distinguishes responses from one another. -/
structure Response where
  ok : Bool
  body : String
deriving DecidableEq, Repr

/-- The browser cache store: URL-keyed entries. `cache.put` on an existing
key replaces the entry; here a fresh entry is consed on and `cacheMatch`
returns the first (most recent) entry, which is observationally the same. -/
abbrev Cache := List (String × Response)

/-- `caches.match(request)`: look up the entry stored for a URL. -/
def cacheMatch (cache : Cache) (url : String) : Option Response :=
  (cache.find? (fun e => e.1 == url)).map (fun e => e.2)

/-- `cache.put(request, response)`: store a response under a URL. -/
def cachePut (cache : Cache) (url : String) (r : Response) : Cache :=
  (url, r) :: cache

/-- JavaScript `s.startsWith(p)`: `p`'s characters are a prefix of `s`'s
(defined on the character lists so that it evaluates by kernel reduction). -/
def startsWith (s p : String) : Bool :=
  p.data.isPrefixOf s.data

/-- The `SW_CONFIG` object embedded at the top of the generated worker. -/
structure SWConfig where
  cacheName : String
  precacheUrls : List String
  navigationFallback : String
  networkFirstPrefixes : List String
  networkOnlyPrefixes : List String
deriving Repr

/-- An incoming fetch request. `pathname` is `new URL(request.url).pathname`;
`mode` is the request mode string compared against `"navigate"`. -/
structure Request where
  url : String
  pathname : String
  mode : String
deriving Repr

/-- The routing tier chosen by the fetch handler for a request. The
network-only / network-first constructors record the matched entry. -/
inductive FetchDecision where
  | navigation
  | networkOnly (p : String)
  | networkFirst (p : String)
  | cacheFirst
deriving DecidableEq, Repr

/-- The routing decision of the generated worker's fetch handler: the
`mode === "navigate"` test, then the two indexed `for` loops over
`SW_CONFIG.networkOnlyPrefixes` and `SW_CONFIG.networkFirstPrefixes`
(`List.find?` is exactly "first match in list order"), then the default. -/
def route (cfg : SWConfig) (mode pathname : String) : FetchDecision :=
  if mode = "navigate" then .navigation
  else
    match cfg.networkOnlyPrefixes.find? (fun p => startsWith pathname p) with
    | some p => .networkOnly p
    | none =>
      match cfg.networkFirstPrefixes.find? (fun p => startsWith pathname p) with
      | some p => .networkFirst p
      | none => .cacheFirst

/-- The full fetch handler: given the cache store and a network oracle
(`net url = some r` models `fetch` resolving with `r`, `none` models
rejection), produce the response passed to `respondWith` and the cache
store afterwards. Translated tier by tier from the template:
navigation (`caches.match(navigationFallback)` then `cached || fetch`),
network-only (`fetch(event.request)` untouched cache), network-first
(`fetch` then cache the clone when `response.ok`, `catch` falls back to
`caches.match`), and the cache-first default. -/
def handleFetch (cfg : SWConfig) (cache : Cache) (net : String → Option Response)
    (req : Request) : Option Response × Cache :=
  if req.mode = "navigate" then
    (match cacheMatch cache cfg.navigationFallback with
     | some cached => some cached
     | none => net req.url,
     cache)
  else
    match cfg.networkOnlyPrefixes.find? (fun p => startsWith req.pathname p) with
    | some _ => (net req.url, cache)
    | none =>
      match cfg.networkFirstPrefixes.find? (fun p => startsWith req.pathname p) with
      | some _ =>
        match net req.url with
        | some response =>
          (some response,
           if response.ok then cachePut cache req.url response else cache)
        | none => (cacheMatch cache req.url, cache)
      | none =>
        (match cacheMatch cache req.url with
         | some cached => some cached
         | none => net req.url,
         cache)

/-- Activate handler, deletion list: `names.filter(n => n !== cacheName)`. -/
def staleCaches (cacheName : String) (names : List String) : List String :=
  names.filter (fun n => n != cacheName)

/-- The cache store names remaining after the activate handler has deleted
every name in `staleCaches`. -/
def afterActivate (cacheName : String) (names : List String) : List String :=
  names.filter (fun n => !((staleCaches cacheName names).contains n))

/-! ### Worker-source generator (`generateSW`, src/unnamed/part_001) -/

/-- The argument object of `generateSW`. A field holding `none` models a
JavaScript property that is absent/`undefined` on the caller's config. -/
structure JsConfig where
  cacheName : Option String
  precacheUrls : Option (List String)
  navigationFallback : Option String
  networkFirstPrefixes : Option (List String)
  networkOnlyPrefixes : Option (List String)
deriving DecidableEq, Repr

/-- JavaScript `a || b` for a possibly-undefined string `a`: `undefined`
and `""` are falsy and fall through to the default. -/
def jsOrStr : Option String → String → String
  | none, d => d
  | some s, d => if s = "" then d else s

/-- JavaScript `a || b` for a possibly-undefined array `a`: every array
value (including `[]`) is truthy, only `undefined` falls through. -/
def jsOrArr : Option (List String) → List String → List String
  | none, d => d
  | some xs, _ => xs

/-- Lowercase hex digit, as used by `JSON.stringify` unicode escapes. -/
def hexDigit (n : Nat) : Char :=
  if n < 10 then Char.ofNat (48 + n) else Char.ofNat (87 + n)

/-- The escaping `JSON.stringify` applies to one character inside a JSON
string literal. -/
def jsonEscapeChar (c : Char) : String :=
  if c = Char.ofNat 34 then "\\\""
  else if c = Char.ofNat 92 then "\\\\"
  else if c = Char.ofNat 10 then "\\n"
  else if c = Char.ofNat 13 then "\\r"
  else if c = Char.ofNat 9 then "\\t"
  else if c = Char.ofNat 8 then "\\b"
  else if c = Char.ofNat 12 then "\\f"
  else if c.toNat < 32 then
    "\\u00" ++ String.mk [hexDigit (c.toNat / 16), hexDigit (c.toNat % 16)]
  else String.mk [c]

/-- `JSON.stringify` of a string value. -/
def jsonString (s : String) : String :=
  "\"" ++ String.join (s.data.map jsonEscapeChar) ++ "\""

/-- `JSON.stringify(·, null, 2)` of an array of strings appearing as a value
of the top-level object (elements indented four spaces, bracket two). -/
def jsonStrArr (xs : List String) : String :=
  match xs with
  | [] => "[]"
  | _ => "[\n" ++ String.intercalate ",\n" (xs.map (fun x => "    " ++ jsonString x)) ++ "\n  ]"

/-- A JSON value occurring in the config object: a string or an array of
strings (the only shapes `generateSW` puts there). -/
inductive JVal where
  | str (s : String)
  | arr (xs : List String)
deriving DecidableEq, Repr

def jvalString : JVal → String
  | .str s => jsonString s
  | .arr xs => jsonStrArr xs

/-- The key/value pairs `JSON.stringify` sees on the object literal built
inside `generateSW`: a key whose value is `undefined` (an absent `cacheName`
or `precacheUrls`) is omitted entirely; `navigationFallback` defaults
through `|| "/"` and the two routing lists through `|| []`. -/
def configPairs (config : JsConfig) : List (String × JVal) :=
  (match config.cacheName with
   | some s => [("cacheName", JVal.str s)]
   | none => []) ++
  (match config.precacheUrls with
   | some xs => [("precacheUrls", JVal.arr xs)]
   | none => []) ++
  [("navigationFallback", JVal.str (jsOrStr config.navigationFallback "/")),
   ("networkFirstPrefixes", JVal.arr (jsOrArr config.networkFirstPrefixes [])),
   ("networkOnlyPrefixes", JVal.arr (jsOrArr config.networkOnlyPrefixes []))]

/-- `JSON.stringify(obj, null, 2)`: two-space indent, keys in insertion
order, `\x7b\x7d` for the empty object. -/
def stringifyConfig (pairs : List (String × JVal)) : String :=
  match pairs with
  | [] => "\x7b\x7d"
  | _ => "\x7b\n" ++ String.intercalate ",\n"
      (pairs.map (fun kv => "  " ++ jsonString kv.1 ++ ": " ++ jvalString kv.2)) ++ "\n\x7d"

/-- The `configJson` local of `generateSW`. -/
def configJson (config : JsConfig) : String :=
  stringifyConfig (configPairs config)

/-- The fixed service-worker template the generator appends after the
embedded config literal (the `SW_TEMPLATE` template literal, verbatim). -/
def SW_TEMPLATE : String :=
  "\n// Install: cache the app shell\nself.addEventListener(\"install\", function (event) \x7b\n  event.waitUntil(\n    caches.open(SW_CONFIG.cacheName).then(function (cache) \x7b\n      return cache.addAll(SW_CONFIG.precacheUrls);\n    \x7d)\n  );\n\x7d);\n\n// Activate: clean up old caches\nself.addEventListener(\"activate\", function (event) \x7b\n  event.waitUntil(\n    caches.keys().then(function (names) \x7b\n      return Promise.all(\n        names\n          .filter(function (n) \x7b\n            return n !== SW_CONFIG.cacheName;\n          \x7d)\n          .map(function (n) \x7b\n            return caches.delete(n);\n          \x7d)\n      );\n    \x7d)\n  );\n\x7d);\n\n// Fetch: navigation fallback, route strategies, then cache-first default\nself.addEventListener(\"fetch\", function (event) \x7b\n  // Navigation requests: serve the cached app shell (Elm handles routing)\n  if (event.request.mode === \"navigate\") \x7b\n    event.respondWith(\n      caches.match(SW_CONFIG.navigationFallback).then(function (cached) \x7b\n        return cached || fetch(event.request);\n      \x7d)\n    );\n    return;\n  \x7d\n\n  // Route-specific strategies (network-only checked first, then network-first)\n  var pathname = new URL(event.request.url).pathname;\n  for (var i = 0; i < SW_CONFIG.networkOnlyPrefixes.length; i++) \x7b\n    if (pathname.startsWith(SW_CONFIG.networkOnlyPrefixes[i])) \x7b\n      event.respondWith(fetch(event.request));\n      return;\n    \x7d\n  \x7d\n  for (var i = 0; i < SW_CONFIG.networkFirstPrefixes.length; i++) \x7b\n    if (pathname.startsWith(SW_CONFIG.networkFirstPrefixes[i])) \x7b\n      event.respondWith(\n        fetch(event.request)\n          .then(function (response) \x7b\n            if (response.ok) \x7b\n              var clone = response.clone();\n              caches.open(SW_CONFIG.cacheName).then(function (cache) \x7b\n                cache.put(event.request, clone);\n              \x7d);\n            \x7d\n            return response;\n          \x7d)\n          .catch(function () \x7b\n            return caches.match(event.request);\n          \x7d)\n      );\n      return;\n    \x7d\n  \x7d\n\n  // Default: cache-first\n  event.respondWith(\n    caches.match(event.request).then(function (cached) \x7b\n      return cached || fetch(event.request);\n    \x7d)\n  );\n\x7d);\n\n// Skip waiting when told to by the main page (update flow)\nself.addEventListener(\"message\", function (event) \x7b\n  if (event.data && event.data.type === \"SKIP_WAITING\") \x7b\n    self.skipWaiting();\n  \x7d\n\x7d);\n\n// Push: show a notification from the push payload\nself.addEventListener(\"push\", function (event) \x7b\n  var payload = \x7b\x7d;\n  if (event.data) \x7b\n    try \x7b\n      payload = event.data.json();\n    \x7d catch (e) \x7b\n      payload = \x7b title: event.data.text() || \"New notification\" \x7d;\n    \x7d\n  \x7d\n  var title = payload.title || \"New notification\";\n  var options = \x7b\n    body: payload.body || \"\",\n    icon: payload.icon || \"\",\n    badge: payload.badge || \"\",\n    tag: payload.tag || \"\",\n    data: payload.data || \x7b\x7d,\n  \x7d;\n  event.waitUntil(self.registration.showNotification(title, options));\n\x7d);\n\n// Notification click: focus an existing window or open a new one\nself.addEventListener(\"notificationclick\", function (event) \x7b\n  event.notification.close();\n  var url = (event.notification.data && event.notification.data.url) || \"/\";\n  event.waitUntil(\n    self.clients\n      .matchAll(\x7b type: \"window\", includeUncontrolled: true \x7d)\n      .then(function (windowClients) \x7b\n        for (var i = 0; i < windowClients.length; i++) \x7b\n          var client = windowClients[i];\n          if (new URL(client.url).origin === self.location.origin) \x7b\n            return client.focus().then(function (focusedClient) \x7b\n              focusedClient.postMessage(\x7b tag: \"notificationClicked\", url: url \x7d);\n            \x7d);\n          \x7d\n        \x7d\n        return self.clients.openWindow(url);\n      \x7d)\n  );\n\x7d);\n"

/-- `generateSW(config)`: serialize the config and prepend it to the fixed
template. The JavaScript body contains no validation and no throwing
operation on an object argument, so the embedding is a total function. -/
def generateSW (config : JsConfig) : String :=
  "var SW_CONFIG = " ++ configJson config ++ ";\n" ++ SW_TEMPLATE

/-! ### Event bridge: VAPID key decoding (src/js/src/index.js, subscribePush) -/

/-- The standard base64 alphabet, indexed by sextet value. -/
def b64Alphabet : List Char :=
  "ABCDEFGHIJKLMNOPQRSTUVWXYZabcdefghijklmnopqrstuvwxyz0123456789+/".data

/-- Character for a sextet value (`n < 64`). -/
def sixToChar (n : Nat) : Char := b64Alphabet.getD n 'A'

/-- Sextet value of an alphabet character, `none` for a non-alphabet one. -/
def charToSix (c : Char) : Option Nat :=
  (List.range 64).find? (fun i => sixToChar i == c)

/-- Browser `atob` composed with the bridge's `charCodeAt` loop that turns
the returned binary string into the `keyArray` byte array (`charCodeAt` is
the identity on a binary string's byte values). Decodes four characters at
a time; a chunk `xx==` at the end yields one byte and `xxx=` two; padding
anywhere else, a non-alphabet character, or a length that is not a multiple
of four is rejected. -/
def atobBytes : List Char → Option (List Nat)
  | [] => some []
  | c1 :: c2 :: c3 :: c4 :: rest =>
    match charToSix c1, charToSix c2 with
    | some s1, some s2 =>
      if c3 = '=' then
        if c4 = '=' then
          if rest.isEmpty then some [s1 * 4 + s2 / 16] else none
        else none
      else
        match charToSix c3 with
        | some s3 =>
          if c4 = '=' then
            if rest.isEmpty then some [s1 * 4 + s2 / 16, s2 % 16 * 16 + s3 / 4]
            else none
          else
            match charToSix c4 with
            | some s4 =>
              (atobBytes rest).map
                (fun tail => (s1 * 4 + s2 / 16) :: (s2 % 16 * 16 + s3 / 4) ::
                  (s3 % 4 * 64 + s4) :: tail)
            | none => none
        | none => none
    | _, _ => none
  | _ => none

/-- Standard (non-url) base64 of a byte sequence, without padding
characters: full three-byte groups give four characters, a two-byte tail
three and a one-byte tail two. -/
def encodeB64 : List Nat → List Char
  | [] => []
  | [b1] => [sixToChar (b1 / 4), sixToChar (b1 % 4 * 16)]
  | [b1, b2] =>
    [sixToChar (b1 / 4), sixToChar (b1 % 4 * 16 + b2 / 16), sixToChar (b2 % 16 * 4)]
  | b1 :: b2 :: b3 :: rest =>
    sixToChar (b1 / 4) :: sixToChar (b1 % 4 * 16 + b2 / 16) ::
      sixToChar (b2 % 16 * 4 + b3 / 64) :: sixToChar (b3 % 64) :: encodeB64 rest

/-- The url-safe alphabet substitution of base64url. -/
def urlSafeChar (c : Char) : Char :=
  if c = '+' then '-' else if c = '/' then '_' else c

/-- Unpadded base64url encoding: the format in which the backend hands the
bridge a VAPID public key (this side is the specification's standard
encoding, not repository code). -/
def encodeB64Url (bytes : List Nat) : List Char :=
  (encodeB64 bytes).map urlSafeChar

/-- The first global `replace` of the bridge decode: every `-` becomes `+`. -/
def dashToPlus (c : Char) : Char := if c = '-' then '+' else c

/-- The second global `replace` of the bridge decode: every `_` becomes `/`. -/
def underToSlash (c : Char) : Char := if c = '_' then '/' else c

/-- Number of `=` padding characters a base64 encoding of `n` bytes carries
(equivalently, what the bridge's `(4 - length % 4) % 4` computes on the
unpadded encoding of `n` bytes). -/
def padCount (n : Nat) : Nat :=
  if n % 3 = 1 then 2 else if n % 3 = 2 then 1 else 0

/-- The VAPID-key decode of the bridge's `subscribePush` command handler:
pad with `=` to a multiple-of-four length, then the two global `replace`
calls substituting `+` for every `-` and `/` for every `_` (each a
per-character substitution on single-character patterns, modelled as the
two corresponding maps), then `atob` plus the `charCodeAt` loop. The
JavaScript string is modelled as its list of characters. -/
def subscribePushDecode (vapidPublicKey : List Char) : Option (List Nat) :=
  let padding := List.replicate ((4 - vapidPublicKey.length % 4) % 4) '='
  let base64 := ((vapidPublicKey ++ padding).map dashToPlus).map underToSlash
  atobBytes base64

/-! ### Elm module `Pwa` (src/src/Pwa.elm) -/

/-- JSON values as delivered to the `pwaIn` port. The numeric payload is
irrelevant to `decodeEvent` (no number is ever decoded). -/
inductive Json where
  | null
  | bool (b : Bool)
  | number (n : Int)
  | string (s : String)
  | array (items : List Json)
  | object (fields : List (String × Json))

/-- Elm `Json.Decode.Error`. -/
inductive DecodeError where
  | field (name : String) (err : DecodeError)
  | index (i : Nat) (err : DecodeError)
  | oneOf (errs : List DecodeError)
  | failure (msg : String) (value : Json)

/-- An Elm JSON decoder. -/
abbrev Decoder (α : Type) := Json → Except DecodeError α

/-- `Json.Decode.decodeValue`. -/
def runDecoder {α : Type} (d : Decoder α) (value : Json) : Except DecodeError α :=
  d value

/-- First field of an object with the given name. -/
def getField (fields : List (String × Json)) (name : String) : Option Json :=
  (fields.find? (fun f => f.1 == name)).map (fun f => f.2)

namespace Decode

def string : Decoder String := fun v =>
  match v with
  | .string s => .ok s
  | _ => .error (.failure "Expecting a STRING" v)

def bool : Decoder Bool := fun v =>
  match v with
  | .bool b => .ok b
  | _ => .error (.failure "Expecting a BOOL" v)

def value : Decoder Json := fun v => .ok v

def succeed {α : Type} (a : α) : Decoder α := fun _ => .ok a

def fail {α : Type} (msg : String) : Decoder α := fun v =>
  .error (.failure msg v)

def map {α β : Type} (f : α → β) (d : Decoder α) : Decoder β := fun v =>
  match d v with
  | .ok a => .ok (f a)
  | .error e => .error e

def andThen {α β : Type} (f : α → Decoder β) (d : Decoder α) : Decoder β := fun v =>
  match d v with
  | .ok a => f a v
  | .error e => .error e

def field {α : Type} (name : String) (d : Decoder α) : Decoder α := fun v =>
  match v with
  | .object fields =>
    match getField fields name with
    | some w =>
      match d w with
      | .ok a => .ok a
      | .error e => .error (.field name e)
    | none => .error (.failure ("Expecting an OBJECT with a field named " ++ name) v)
  | _ => .error (.failure ("Expecting an OBJECT with a field named " ++ name) v)

end Decode

/-- `Pwa.NotificationPermission`. -/
inductive NotificationPermission where
  | Granted
  | Denied
  | Default
  | Unsupported
deriving DecidableEq, Repr

/-- `Pwa.Event`: the closed union of the ten events the bridge can emit. -/
inductive Event where
  | ConnectionChanged (online : Bool)
  | UpdateAvailable
  | InstallAvailable
  | Installed
  | InstalledInBrowser
  | NotificationPermissionChanged (permission : NotificationPermission)
  | PushSubscription (subscription : Json)
  | PushSubscriptionError (message : String)
  | PushUnsubscribed
  | NotificationClicked (url : String)

/-- `notificationPermissionDecoder`. -/
def notificationPermissionDecoder : Decoder NotificationPermission :=
  Decode.string |> Decode.andThen (fun str =>
    match str with
    | "granted" => Decode.succeed NotificationPermission.Granted
    | "denied" => Decode.succeed NotificationPermission.Denied
    | "default" => Decode.succeed NotificationPermission.Default
    | "unsupported" => Decode.succeed NotificationPermission.Unsupported
    | _ => Decode.fail ("Unknown notification permission: " ++ str))

/-- `eventDecoder`. -/
def eventDecoder : Decoder Event :=
  Decode.field "tag" Decode.string |> Decode.andThen (fun tag =>
    match tag with
    | "connectionChanged" =>
      Decode.field "online" Decode.bool |> Decode.map Event.ConnectionChanged
    | "updateAvailable" => Decode.succeed Event.UpdateAvailable
    | "installAvailable" => Decode.succeed Event.InstallAvailable
    | "installed" => Decode.succeed Event.Installed
    | "installedInBrowser" => Decode.succeed Event.InstalledInBrowser
    | "notificationPermissionChanged" =>
      Decode.field "permission" notificationPermissionDecoder
        |> Decode.map Event.NotificationPermissionChanged
    | "pushSubscription" =>
      Decode.field "subscription" Decode.value |> Decode.map Event.PushSubscription
    | "pushSubscriptionError" =>
      Decode.field "error" Decode.string |> Decode.map Event.PushSubscriptionError
    | "pushUnsubscribed" => Decode.succeed Event.PushUnsubscribed
    | "notificationClicked" =>
      Decode.field "url" Decode.string |> Decode.map Event.NotificationClicked
    | _ => Decode.fail ("Unknown PWA event tag: " ++ tag))

/-- `Pwa.decodeEvent`. -/
def decodeEvent (value : Json) : Except DecodeError Event :=
  runDecoder eventDecoder value

/-- The ten wire tags `eventDecoder` recognizes. -/
def knownTags : List String :=
  ["connectionChanged", "updateAvailable", "installAvailable", "installed",
   "installedInBrowser", "notificationPermissionChanged", "pushSubscription",
   "pushSubscriptionError", "pushUnsubscribed", "notificationClicked"]

/-- The `tag` field of a JSON value, when it is an object carrying one. -/
def tagOf (v : Json) : Option Json :=
  match v with
  | .object fields => getField fields "tag"
  | _ => none

end ElmPwa

namespace ElmPwa

/-- `List.find?` returns the element at the first index satisfying the
predicate: this is the "first match wins, in list order" reading of the
worker's indexed `for` loops. -/
theorem find_eq_of_first_index {α : Type} (p : α → Bool) (l : List α) :
    ∀ (i : Nat) (hi : i < l.length),
      p (l.get ⟨i, hi⟩) = true →
      (∀ j (hj : j < i), p (l.get ⟨j, Nat.lt_trans hj hi⟩) = false) →
      l.find? p = some (l.get ⟨i, hi⟩) := by
  induction l with
  | nil => intro i hi; simp at hi
  | cons a l ih =>
    intro i hi hp hfirst
    cases i with
    | zero =>
      have hpa : p a = true := by simpa using hp
      simp [List.find?_cons_of_pos _ hpa]
    | succ i =>
      have ha : ¬ p a = true := by
        have := hfirst 0 (Nat.succ_pos i)
        simp only [List.get] at this
        simp [this]
      have hp' : p (l.get ⟨i, Nat.lt_of_succ_lt_succ hi⟩) = true := by simpa using hp
      have hfirst' : ∀ j (hj : j < i),
          p (l.get ⟨j, Nat.lt_trans hj (Nat.lt_of_succ_lt_succ hi)⟩) = false := by
        intro j hj
        simpa using hfirst (j + 1) (Nat.succ_lt_succ hj)
      rw [List.find?_cons_of_neg _ ha, ih i (Nat.lt_of_succ_lt_succ hi) hp' hfirst']
      simp

end ElmPwa

namespace ElmPwa

/-- C1: for every generated worker and incoming fetch request the routing
decision is taken in the fixed order — navigation-mode requests bypass
prefix matching entirely; otherwise the path is matched against
`networkOnlyPrefixes` in list order (first match wins) before any
`networkFirstPrefixes` entry is consulted; only when no prefix matches
does the default cache-first tier apply. -/
theorem c1_routing_tier_order :
    (∀ (cfg : SWConfig) (pathname : String),
       route cfg "navigate" pathname = FetchDecision.navigation)
    ∧ (∀ (cfg : SWConfig) (mode pathname : String) (i : Nat)
         (hi : i < cfg.networkOnlyPrefixes.length),
         mode ≠ "navigate" →
         startsWith pathname (cfg.networkOnlyPrefixes.get ⟨i, hi⟩) = true →
         (∀ j (hj : j < i),
           startsWith pathname (cfg.networkOnlyPrefixes.get ⟨j, Nat.lt_trans hj hi⟩) = false) →
         route cfg mode pathname = FetchDecision.networkOnly (cfg.networkOnlyPrefixes.get ⟨i, hi⟩))
    ∧ (∀ (cfg : SWConfig) (mode pathname : String) (i : Nat)
         (hi : i < cfg.networkFirstPrefixes.length),
         mode ≠ "navigate" →
         (∀ p ∈ cfg.networkOnlyPrefixes, startsWith pathname p = false) →
         startsWith pathname (cfg.networkFirstPrefixes.get ⟨i, hi⟩) = true →
         (∀ j (hj : j < i),
           startsWith pathname (cfg.networkFirstPrefixes.get ⟨j, Nat.lt_trans hj hi⟩) = false) →
         route cfg mode pathname = FetchDecision.networkFirst (cfg.networkFirstPrefixes.get ⟨i, hi⟩))
    ∧ (∀ (cfg : SWConfig) (mode pathname : String),
         mode ≠ "navigate" →
         (∀ p ∈ cfg.networkOnlyPrefixes, startsWith pathname p = false) →
         (∀ p ∈ cfg.networkFirstPrefixes, startsWith pathname p = false) →
         route cfg mode pathname = FetchDecision.cacheFirst) := by
  refine ⟨?_, ?_, ?_, ?_⟩
  · intro cfg pathname
    simp [route]
  · intro cfg mode pathname i hi hmode hp hfirst
    unfold route
    rw [if_neg hmode, find_eq_of_first_index _ _ i hi hp hfirst]
  · intro cfg mode pathname i hi hmode honly hp hfirst
    have h1 : cfg.networkOnlyPrefixes.find? (fun p => startsWith pathname p) = none :=
      List.find?_eq_none.mpr (fun p hp => by simp [honly p hp])
    unfold route
    rw [if_neg hmode, h1, find_eq_of_first_index _ _ i hi hp hfirst]
  · intro cfg mode pathname hmode honly hfirst
    have h1 : cfg.networkOnlyPrefixes.find? (fun p => startsWith pathname p) = none :=
      List.find?_eq_none.mpr (fun p hp => by simp [honly p hp])
    have h2 : cfg.networkFirstPrefixes.find? (fun p => startsWith pathname p) = none :=
      List.find?_eq_none.mpr (fun p hp => by simp [hfirst p hp])
    unfold route
    rw [if_neg hmode, h1, h2]

/-- Witness for C1 at concrete inputs: a navigation request bypasses a
matching network-only entry; a path matching both lists routes
network-only; an api path routes network-first; an unmatched path falls
to cache-first. -/
theorem c1_routing_tier_order_witness :
    route ⟨"c", [], "/", ["/api/"], ["/auth/"]⟩ "navigate" "/auth/x"
        = FetchDecision.navigation
    ∧ route ⟨"c", [], "/", ["/auth/"], ["/auth/"]⟩ "cors" "/auth/x"
        = FetchDecision.networkOnly "/auth/"
    ∧ route ⟨"c", [], "/", ["/api/"], ["/auth/"]⟩ "cors" "/api/x"
        = FetchDecision.networkFirst "/api/"
    ∧ route ⟨"c", [], "/", ["/api/"], ["/auth/"]⟩ "cors" "/style.css"
        = FetchDecision.cacheFirst :=
  ⟨c1_routing_tier_order.1 _ _,
   c1_routing_tier_order.2.1 _ "cors" "/auth/x" 0 (by decide) (by decide) (by decide)
     (fun j hj => absurd hj (Nat.not_lt_zero j)),
   c1_routing_tier_order.2.2.1 _ "cors" "/api/x" 0 (by decide) (by decide) (by decide)
     (by decide) (fun j hj => absurd hj (Nat.not_lt_zero j)),
   c1_routing_tier_order.2.2.2 _ "cors" "/style.css" (by decide) (by decide) (by decide)⟩

end ElmPwa

namespace ElmPwa

/-- C4: the activate step deletes exactly those cache store names that
differ from `cacheName` and keeps the store named `cacheName`; from
existing names `{"v1","v2"}` with `cacheName = "v2"`, only `"v2"` remains. -/
theorem c4_activate_keeps_only_current :
    (∀ (cacheName n : String) (names : List String),
       n ∈ staleCaches cacheName names ↔ n ∈ names ∧ n ≠ cacheName)
    ∧ (∀ (cacheName : String) (names : List String),
       afterActivate cacheName names = names.filter (fun n => n == cacheName))
    ∧ afterActivate "v2" ["v1", "v2"] = ["v2"] := by
  refine ⟨?_, ?_, by decide⟩
  · intro cacheName n names
    simp [staleCaches, List.mem_filter]
  · intro cacheName names
    unfold afterActivate
    apply List.filter_congr
    intro n hn
    by_cases h : n = cacheName
    · subst h
      have hmem : n ∉ staleCaches n names := by
        simp [staleCaches, List.mem_filter]
      simp [List.elem_iff, hmem]
    · have hmem : n ∈ staleCaches cacheName names := by
        simp [staleCaches, List.mem_filter, hn, h]
      simp [List.elem_iff, hmem, h]

/-- C5: a navigation-mode request is answered with the cached entry stored
at `navigationFallback`, whatever the requested path; when no such entry
exists, the worker falls through to a live network fetch of the actual
request. The cache is left unchanged either way. -/
theorem c5_navigation_fallback :
    ∀ (cfg : SWConfig) (cache : Cache) (net : String → Option Response) (req : Request),
      req.mode = "navigate" →
      (∀ r, cacheMatch cache cfg.navigationFallback = some r →
         handleFetch cfg cache net req = (some r, cache))
      ∧ (cacheMatch cache cfg.navigationFallback = none →
         handleFetch cfg cache net req = (net req.url, cache)) := by
  intro cfg cache net req hmode
  constructor
  · intro r hr
    unfold handleFetch
    rw [if_pos hmode, hr]
  · intro hr
    unfold handleFetch
    rw [if_pos hmode, hr]

/-- Witness for C5: with the shell cached at `/`, a navigation request to a
deep route is served the shell; with an empty cache it goes to the network
for the requested URL. -/
theorem c5_navigation_fallback_witness :
    handleFetch ⟨"c", ["/"], "/", [], []⟩ [("/", ⟨true, "shell"⟩)] (fun _ => none)
        ⟨"/deep/route", "/deep/route", "navigate"⟩
      = (some ⟨true, "shell"⟩, [("/", ⟨true, "shell"⟩)])
    ∧ handleFetch ⟨"c", ["/"], "/", [], []⟩ [] (fun u => some ⟨true, u⟩)
        ⟨"/deep/route", "/deep/route", "navigate"⟩
      = (some ⟨true, "/deep/route"⟩, []) :=
  ⟨(c5_navigation_fallback _ _ _ _ rfl).1 _ rfl,
   (c5_navigation_fallback _ _ _ _ rfl).2 rfl⟩

/-- C6: with `networkOnlyPrefixes = ["/auth/"]`, every non-navigation
request whose path starts with `/auth/` is answered by the live network
fetch alone — the cache store is neither read (the outcome is `net req.url`
for any cache contents, even a cache holding a matching entry) nor written
(the store is returned unchanged), whether the fetch succeeds or fails. -/
theorem c6_network_only_never_touches_cache :
    ∀ (cfg : SWConfig) (cache : Cache) (net : String → Option Response) (req : Request),
      cfg.networkOnlyPrefixes = ["/auth/"] →
      req.mode ≠ "navigate" →
      startsWith req.pathname "/auth/" = true →
      handleFetch cfg cache net req = (net req.url, cache) := by
  intro cfg cache net req hcfg hmode hpath
  unfold handleFetch
  rw [if_neg hmode, hcfg]
  simp [List.find?, hpath]

/-- Witness for C6: a request to `/auth/login` whose network fetch fails,
while the cache holds a matching entry, still yields the failed network
result and an untouched cache. -/
theorem c6_network_only_never_touches_cache_witness :
    handleFetch ⟨"c", [], "/", [], ["/auth/"]⟩ [("/auth/login", ⟨true, "cached"⟩)]
        (fun _ => none) ⟨"/auth/login", "/auth/login", "cors"⟩
      = (none, [("/auth/login", ⟨true, "cached"⟩)]) :=
  c6_network_only_never_touches_cache _ _ _ _ rfl (by decide) (by decide)

/-- C7: with `networkFirstPrefixes = ["/api/"]`, when the network fetch for
a request to an `/api/`-path fails and a cached entry for that request
exists, the worker returns that cached entry (cache unchanged). -/
theorem c7_network_first_offline_fallback :
    ∀ (cfg : SWConfig) (cache : Cache) (net : String → Option Response)
      (req : Request) (r : Response),
      cfg.networkFirstPrefixes = ["/api/"] →
      req.mode ≠ "navigate" →
      (∀ p ∈ cfg.networkOnlyPrefixes, startsWith req.pathname p = false) →
      startsWith req.pathname "/api/" = true →
      net req.url = none →
      cacheMatch cache req.url = some r →
      handleFetch cfg cache net req = (some r, cache) := by
  intro cfg cache net req r hcfg hmode honly hpath hnet hcache
  have h1 : cfg.networkOnlyPrefixes.find? (fun p => startsWith req.pathname p) = none :=
    List.find?_eq_none.mpr (fun p hp => by simp [honly p hp])
  unfold handleFetch
  rw [if_neg hmode, h1, hcfg]
  simp [List.find?, hpath, hnet, hcache]

/-- Witness for C7 at a concrete offline scenario. -/
theorem c7_network_first_offline_fallback_witness :
    handleFetch ⟨"c", [], "/", ["/api/"], []⟩ [("/api/x", ⟨true, "old data"⟩)]
        (fun _ => none) ⟨"/api/x", "/api/x", "cors"⟩
      = (some ⟨true, "old data"⟩, [("/api/x", ⟨true, "old data"⟩)]) :=
  c7_network_first_offline_fallback _ _ _ _ _ rfl (by decide) (by decide) (by decide)
    rfl (by decide)

end ElmPwa

namespace ElmPwa

/-- C2 (amended): with `networkFirstPrefixes = ["/api/"]`, a non-navigation
request to an `/api/`-path whose network fetch succeeds WITH AN OK RESPONSE
(`response.ok` true) has that response stored in the cache store under the
request's key, retrievable by a subsequent cache lookup, and the worker
returns the original network response (the stored copy is the clone). The
claim as frozen omits the `response.ok` qualification; the counterexample
shows a resolved non-ok fetch is not cached. -/
theorem c2_network_first_stores_ok_response :
    ∀ (cfg : SWConfig) (cache : Cache) (net : String → Option Response)
      (req : Request) (r : Response),
      cfg.networkFirstPrefixes = ["/api/"] →
      req.mode ≠ "navigate" →
      (∀ p ∈ cfg.networkOnlyPrefixes, startsWith req.pathname p = false) →
      startsWith req.pathname "/api/" = true →
      net req.url = some r →
      r.ok = true →
      handleFetch cfg cache net req = (some r, cachePut cache req.url r)
      ∧ cacheMatch (handleFetch cfg cache net req).2 req.url = some r := by
  intro cfg cache net req r hcfg hmode honly hpath hnet hok
  have h1 : cfg.networkOnlyPrefixes.find? (fun p => startsWith req.pathname p) = none :=
    List.find?_eq_none.mpr (fun p hp => by simp [honly p hp])
  have hmain : handleFetch cfg cache net req = (some r, cachePut cache req.url r) := by
    unfold handleFetch
    rw [if_neg hmode, h1, hcfg]
    simp [List.find?, hpath, hnet, hok]
  refine ⟨hmain, ?_⟩
  rw [hmain]
  simp [cacheMatch, cachePut, List.find?]

/-- Witness for the amended C2 at a concrete ok response. -/
theorem c2_network_first_stores_ok_response_witness :
    handleFetch ⟨"c", [], "/", ["/api/"], []⟩ [] (fun _ => some ⟨true, "fresh"⟩)
        ⟨"/api/x", "/api/x", "cors"⟩
      = (some ⟨true, "fresh"⟩, [("/api/x", ⟨true, "fresh"⟩)])
    ∧ cacheMatch (handleFetch ⟨"c", [], "/", ["/api/"], []⟩ []
        (fun _ => some ⟨true, "fresh"⟩) ⟨"/api/x", "/api/x", "cors"⟩).2 "/api/x"
      = some ⟨true, "fresh"⟩ :=
  c2_network_first_stores_ok_response _ _ _ _ _ rfl (by decide) (by decide) (by decide)
    rfl rfl

/-- C2 counterexample: the claim as stated is false. With
`networkFirstPrefixes = ["/api/"]` and an empty cache, a request to
`/api/x` whose network fetch SUCCEEDS (the promise resolves, here with a
404-style response whose `ok` is false) does not get stored: the
subsequent cache lookup at `/api/x` still finds nothing, because the
template only calls `cache.put` when `response.ok` holds. -/
theorem c2_counterexample :
    (handleFetch ⟨"c", [], "/", ["/api/"], []⟩ [] (fun _ => some ⟨false, "404 page"⟩)
        ⟨"/api/x", "/api/x", "cors"⟩).1 = some ⟨false, "404 page"⟩
    ∧ cacheMatch (handleFetch ⟨"c", [], "/", ["/api/"], []⟩ []
        (fun _ => some ⟨false, "404 page"⟩) ⟨"/api/x", "/api/x", "cors"⟩).2 "/api/x"
      = none := by
  constructor <;> rfl

end ElmPwa

namespace ElmPwa

/-- C3 counterexample: the claim "generateSW fails if a required field is
absent" is false. On a config whose `cacheName` is absent, `generateSW`
does not fail: it returns an ordinary worker source string whose embedded
config literal silently omits the `cacheName` key (the body of the
JavaScript function contains no check and no throwing operation). -/
theorem c3_counterexample :
    configJson ⟨none, some ["/"], none, none, none⟩
      = "\x7b\n  \"precacheUrls\": [\n    \"/\"\n  ],\n  \"navigationFallback\": \"/\",\n  \"networkFirstPrefixes\": [],\n  \"networkOnlyPrefixes\": []\n\x7d"
    ∧ generateSW ⟨none, some ["/"], none, none, none⟩
      = "var SW_CONFIG = " ++ configJson ⟨none, some ["/"], none, none, none⟩
          ++ ";\n" ++ SW_TEMPLATE := by
  constructor <;> rfl

/-- C3 (amended): `generateSW` never fails at construction time — for every
config, including one missing `cacheName` or `precacheUrls`, it returns
the worker source string (config serialization followed by the fixed
template); a missing required field is silently omitted from the embedded
config literal rather than signalled, and is embedded exactly when the
caller supplied it. -/
theorem c3_generate_never_fails :
    ∀ (config : JsConfig),
      generateSW config
        = "var SW_CONFIG = " ++ configJson config ++ ";\n" ++ SW_TEMPLATE
      ∧ ((configPairs config).lookup "cacheName").isSome = config.cacheName.isSome
      ∧ ((configPairs config).lookup "precacheUrls").isSome = config.precacheUrls.isSome := by
  intro config
  refine ⟨rfl, ?_, ?_⟩
  · cases hc : config.cacheName <;> cases hp : config.precacheUrls <;>
      simp [configPairs, hc, hp, List.lookup]
  · cases hc : config.cacheName <;> cases hp : config.precacheUrls <;>
      simp [configPairs, hc, hp, List.lookup]

/-- C8: `generateSW` is deterministic — structurally equal configs produce
byte-identical worker source strings (the embedding is a pure function of
the config record). -/
theorem c8_generate_deterministic :
    ∀ (c1 c2 : JsConfig), c1 = c2 → generateSW c1 = generateSW c2 := by
  intro c1 c2 h
  rw [h]

/-- Witness for C8 at a concrete config. -/
theorem c8_generate_deterministic_witness :
    generateSW ⟨some "my-app-v1", some ["/", "/elm.js"], none, some ["/api/"], none⟩
      = generateSW ⟨some "my-app-v1", some ["/", "/elm.js"], none, some ["/api/"], none⟩ :=
  c8_generate_deterministic _ _ rfl

end ElmPwa

namespace ElmPwa

/-- Decoding table inverts the encoding table on every sextet value. -/
theorem charToSix_sixToChar : ∀ n, n < 64 → charToSix (sixToChar n) = some n := by decide

/-- No alphabet character is the padding character. -/
theorem sixToChar_ne_pad : ∀ n, n < 64 → sixToChar n ≠ '=' := by decide

/-- The bridge's two replaces undo the url-safe substitution on every
alphabet character. -/
theorem replaces_undo_urlsafe :
    ∀ n, n < 64 → underToSlash (dashToPlus (urlSafeChar (sixToChar n))) = sixToChar n := by
  decide

/-- The bridge's two replaces leave the padding character alone. -/
theorem replaces_fix_pad : underToSlash (dashToPlus '=') = '=' := by decide

/-- Every character of an unpadded base64 encoding of in-range bytes is an
alphabet character. -/
theorem encodeB64_sextets :
    ∀ (bytes : List Nat), (∀ b ∈ bytes, b < 256) →
      ∀ c ∈ encodeB64 bytes, ∃ n, n < 64 ∧ c = sixToChar n := by
  intro bytes
  induction bytes using encodeB64.induct with
  | case1 =>
    intro _ c hc
    simp [encodeB64] at hc
  | case2 b1 =>
    intro h c hc
    have hb1 : b1 < 256 := h b1 (by simp)
    simp only [encodeB64, List.mem_cons, List.not_mem_nil, or_false] at hc
    rcases hc with h1 | h2
    · exact ⟨b1 / 4, by omega, h1⟩
    · exact ⟨b1 % 4 * 16, by omega, h2⟩
  | case3 b1 b2 =>
    intro h c hc
    have hb1 : b1 < 256 := h b1 (by simp)
    have hb2 : b2 < 256 := h b2 (by simp)
    simp only [encodeB64, List.mem_cons, List.not_mem_nil, or_false] at hc
    rcases hc with h1 | h2 | h3
    · exact ⟨b1 / 4, by omega, h1⟩
    · exact ⟨b1 % 4 * 16 + b2 / 16, by omega, h2⟩
    · exact ⟨b2 % 16 * 4, by omega, h3⟩
  | case4 b1 b2 b3 rest ih =>
    intro h c hc
    have hb1 : b1 < 256 := h b1 (by simp)
    have hb2 : b2 < 256 := h b2 (by simp)
    have hb3 : b3 < 256 := h b3 (by simp)
    simp only [encodeB64, List.mem_cons] at hc
    rcases hc with h1 | h2 | h3 | h4 | h5
    · exact ⟨b1 / 4, by omega, h1⟩
    · exact ⟨b1 % 4 * 16 + b2 / 16, by omega, h2⟩
    · exact ⟨b2 % 16 * 4 + b3 / 64, by omega, h3⟩
    · exact ⟨b3 % 64, by omega, h4⟩
    · exact ih (fun b hb => h b (by simp [hb])) c h5

end ElmPwa

namespace ElmPwa

/-- A map that fixes every member of a list is the identity on it. -/
theorem map_eq_self_of_mem {α : Type} (f : α → α) :
    ∀ (l : List α), (∀ a ∈ l, f a = a) → l.map f = l := by
  intro l
  induction l with
  | nil => intro _; rfl
  | cons a l ih =>
    intro h
    simp only [List.map_cons, h a (by simp), ih (fun b hb => h b (by simp [hb]))]

/-- The two replaces of the bridge decode restore the standard alphabet on
an unpadded base64url encoding followed by padding characters. -/
theorem decode_maps_restore (bytes : List Nat) (h : ∀ b ∈ bytes, b < 256) (k : Nat) :
    ((encodeB64Url bytes ++ List.replicate k '=').map dashToPlus).map underToSlash
      = encodeB64 bytes ++ List.replicate k '=' := by
  simp only [List.map_append, List.map_map, encodeB64Url]
  congr 1
  · apply map_eq_self_of_mem
    intro c hc
    obtain ⟨n, hn, rfl⟩ := encodeB64_sextets bytes h c hc
    exact replaces_undo_urlsafe n hn
  · apply map_eq_self_of_mem
    intro c hc
    have : c = '=' := List.eq_of_mem_replicate hc
    subst this
    exact replaces_fix_pad

/-- Length of the unpadded base64 encoding in terms of the byte count. -/
theorem encodeB64_length :
    ∀ (bytes : List Nat),
      (encodeB64 bytes).length
        = bytes.length / 3 * 4
          + (if bytes.length % 3 = 0 then 0 else bytes.length % 3 + 1) := by
  intro bytes
  induction bytes using encodeB64.induct with
  | case1 => simp [encodeB64]
  | case2 b1 => simp [encodeB64]
  | case3 b1 b2 => simp [encodeB64]
  | case4 b1 b2 b3 rest ih =>
    simp only [encodeB64, List.length_cons]
    rw [ih]
    have h1 : (rest.length + 1 + 1 + 1) % 3 = rest.length % 3 := by omega
    have h2 : (rest.length + 1 + 1 + 1) / 3 = rest.length / 3 + 1 := by omega
    rw [h1, h2]
    split <;> omega

end ElmPwa

namespace ElmPwa

/-- `atob` inverts the unpadded base64 encoding once the missing padding is
restored, for every byte sequence. -/
theorem atob_encodeB64 :
    ∀ (bytes : List Nat), (∀ b ∈ bytes, b < 256) →
      atobBytes (encodeB64 bytes ++ List.replicate (padCount bytes.length) '=')
        = some bytes := by
  intro bytes
  induction bytes using encodeB64.induct with
  | case1 =>
    intro _
    simp [encodeB64, padCount, atobBytes]
  | case2 b1 =>
    intro h
    have hb1 : b1 < 256 := h b1 (by simp)
    have e1 := charToSix_sixToChar (b1 / 4) (by omega)
    have e2 := charToSix_sixToChar (b1 % 4 * 16) (by omega)
    have hpad : padCount ([b1] : List Nat).length = 2 := rfl
    rw [hpad]
    simp only [encodeB64, List.replicate, List.cons_append, List.nil_append]
    simp [atobBytes, e1, e2]
    omega
  | case3 b1 b2 =>
    intro h
    have hb1 : b1 < 256 := h b1 (by simp)
    have hb2 : b2 < 256 := h b2 (by simp)
    have e1 := charToSix_sixToChar (b1 / 4) (by omega)
    have e2 := charToSix_sixToChar (b1 % 4 * 16 + b2 / 16) (by omega)
    have e3 := charToSix_sixToChar (b2 % 16 * 4) (by omega)
    have hne3 := sixToChar_ne_pad (b2 % 16 * 4) (by omega)
    have hpad : padCount ([b1, b2] : List Nat).length = 1 := rfl
    rw [hpad]
    simp only [encodeB64, List.replicate, List.cons_append, List.nil_append]
    simp [atobBytes, e1, e2, e3, hne3]
    omega
  | case4 b1 b2 b3 rest ih =>
    intro h
    have hb1 : b1 < 256 := h b1 (by simp)
    have hb2 : b2 < 256 := h b2 (by simp)
    have hb3 : b3 < 256 := h b3 (by simp)
    have hrest : ∀ b ∈ rest, b < 256 := fun b hb => h b (by simp [hb])
    have e1 := charToSix_sixToChar (b1 / 4) (by omega)
    have e2 := charToSix_sixToChar (b1 % 4 * 16 + b2 / 16) (by omega)
    have e3 := charToSix_sixToChar (b2 % 16 * 4 + b3 / 64) (by omega)
    have e4 := charToSix_sixToChar (b3 % 64) (by omega)
    have hne3 := sixToChar_ne_pad (b2 % 16 * 4 + b3 / 64) (by omega)
    have hne4 := sixToChar_ne_pad (b3 % 64) (by omega)
    have hpad : padCount ((b1 :: b2 :: b3 :: rest : List Nat)).length
        = padCount rest.length := by
      unfold padCount
      have hm : (b1 :: b2 :: b3 :: rest : List Nat).length % 3 = rest.length % 3 := by
        simp only [List.length_cons]
        omega
      rw [hm]
    rw [hpad]
    simp only [encodeB64, List.cons_append]
    simp [atobBytes, e1, e2, e3, e4, hne3, hne4, ih hrest]
    omega

end ElmPwa

namespace ElmPwa

/-- C9: the bridge's `subscribePush` handler decodes the VAPID public key
by replacing `-` with `+` and `_` with `/` and padding with `=` to a
multiple-of-four length before base64 decoding; for every 32-byte key,
encoding it as unpadded base64url and applying this decode reconstructs
exactly the original 32 bytes. -/
theorem c9_vapid_key_roundtrip :
    ∀ (key : List Nat), key.length = 32 → (∀ b ∈ key, b < 256) →
      subscribePushDecode (encodeB64Url key) = some key := by
  intro key _ hb
  simp only [subscribePushDecode]
  have hlen2 : (encodeB64Url key).length = (encodeB64 key).length := by
    simp [encodeB64Url]
  have hpadeq : (4 - (encodeB64Url key).length % 4) % 4 = padCount key.length := by
    rw [hlen2, encodeB64_length key]
    unfold padCount
    split_ifs <;> omega
  rw [hpadeq, decode_maps_restore key hb (padCount key.length)]
  exact atob_encodeB64 key hb

/-- Witness for C9 at the concrete 32-byte key `0,1,...,31`. -/
theorem c9_vapid_key_roundtrip_witness :
    (List.range 32).length = 32 ∧ (∀ b ∈ List.range 32, b < 256)
    ∧ subscribePushDecode (encodeB64Url (List.range 32)) = some (List.range 32) :=
  ⟨by decide, by decide, c9_vapid_key_roundtrip (List.range 32) (by decide) (by decide)⟩

end ElmPwa

namespace ElmPwa

/-- C10: `Pwa.decodeEvent` is total over JSON values and the event union is
closed — every input yields `Ok` of one of the ten `Event` variants or
`Err` of a decode error; a value whose `tag` field is missing, non-string,
or not one of the ten known tags yields `Err`; and a
`notificationPermissionChanged` value whose permission string is not one of
`granted`, `denied`, `default`, `unsupported` also yields `Err` rather than
being mapped to `Unsupported`. -/
theorem c10_decode_event_total_and_closed :
    (∀ v : Json, (∃ e, decodeEvent v = Except.ok e)
       ∨ (∃ err, decodeEvent v = Except.error err))
    ∧ (∀ v : Json, tagOf v = none → ∃ err, decodeEvent v = Except.error err)
    ∧ (∀ (v j : Json), tagOf v = some j → (∀ s, j ≠ Json.string s) →
        ∃ err, decodeEvent v = Except.error err)
    ∧ (∀ (v : Json) (s : String), tagOf v = some (Json.string s) → s ∉ knownTags →
        ∃ err, decodeEvent v = Except.error err)
    ∧ (∀ (fields : List (String × Json)) (s : String),
        getField fields "tag" = some (Json.string "notificationPermissionChanged") →
        getField fields "permission" = some (Json.string s) →
        s ∉ (["granted", "denied", "default", "unsupported"] : List String) →
        ∃ err, decodeEvent (Json.object fields) = Except.error err) := by
  refine ⟨?_, ?_, ?_, ?_, ?_⟩
  · intro v
    cases h : decodeEvent v with
    | ok e => exact Or.inl ⟨e, rfl⟩
    | error err => exact Or.inr ⟨err, rfl⟩
  · intro v htag
    cases hd : decodeEvent v with
    | error err => exact ⟨err, rfl⟩
    | ok e =>
      exfalso
      cases v with
      | object fields =>
        have hf : getField fields "tag" = none := by simpa [tagOf] using htag
        simp [decodeEvent, runDecoder, eventDecoder, Decode.andThen, Decode.field, hf] at hd
      | null => simp [decodeEvent, runDecoder, eventDecoder, Decode.andThen, Decode.field] at hd
      | bool b => simp [decodeEvent, runDecoder, eventDecoder, Decode.andThen, Decode.field] at hd
      | number n => simp [decodeEvent, runDecoder, eventDecoder, Decode.andThen, Decode.field] at hd
      | string s => simp [decodeEvent, runDecoder, eventDecoder, Decode.andThen, Decode.field] at hd
      | array xs => simp [decodeEvent, runDecoder, eventDecoder, Decode.andThen, Decode.field] at hd
  · intro v j htag hns
    cases hd : decodeEvent v with
    | error err => exact ⟨err, rfl⟩
    | ok e =>
      exfalso
      cases v with
      | object fields =>
        have hf : getField fields "tag" = some j := by simpa [tagOf] using htag
        cases j with
        | string s => exact hns s rfl
        | null =>
          simp [decodeEvent, runDecoder, eventDecoder, Decode.andThen, Decode.field, hf,
            Decode.string] at hd
        | bool b =>
          simp [decodeEvent, runDecoder, eventDecoder, Decode.andThen, Decode.field, hf,
            Decode.string] at hd
        | number n =>
          simp [decodeEvent, runDecoder, eventDecoder, Decode.andThen, Decode.field, hf,
            Decode.string] at hd
        | array xs =>
          simp [decodeEvent, runDecoder, eventDecoder, Decode.andThen, Decode.field, hf,
            Decode.string] at hd
        | object fs =>
          simp [decodeEvent, runDecoder, eventDecoder, Decode.andThen, Decode.field, hf,
            Decode.string] at hd
      | null => simp [tagOf] at htag
      | bool b => simp [tagOf] at htag
      | number n => simp [tagOf] at htag
      | string s => simp [tagOf] at htag
      | array xs => simp [tagOf] at htag
  · intro v s htag hs
    cases hd : decodeEvent v with
    | error err => exact ⟨err, rfl⟩
    | ok e =>
      exfalso
      cases v with
      | object fields =>
        have hf : getField fields "tag" = some (Json.string s) := by simpa [tagOf] using htag
        simp only [decodeEvent, runDecoder, eventDecoder, Decode.andThen, Decode.field, hf,
          Decode.string] at hd
        split at hd <;> simp_all [knownTags, Decode.fail]
      | null => simp [tagOf] at htag
      | bool b => simp [tagOf] at htag
      | number n => simp [tagOf] at htag
      | string t => simp [tagOf] at htag
      | array xs => simp [tagOf] at htag
  · intro fields s htag hperm hs
    cases hd : decodeEvent (Json.object fields) with
    | error err => exact ⟨err, rfl⟩
    | ok e =>
      exfalso
      simp only [decodeEvent, runDecoder, eventDecoder, Decode.andThen, Decode.field, htag,
        Decode.string, Decode.map, notificationPermissionDecoder, hperm] at hd
      split at hd <;> simp_all [Decode.succeed, Decode.fail]

end ElmPwa

namespace ElmPwa

/-- Witness for C10 at concrete inputs: an unknown tag, a missing tag, a
non-string tag, and an unknown permission string each decode to `Err`. -/
theorem c10_decode_event_total_and_closed_witness :
    (decodeEvent (Json.object [("tag", Json.string "bogus")])).isOk = false
    ∧ (decodeEvent Json.null).isOk = false
    ∧ (decodeEvent (Json.object [("tag", Json.number 7)])).isOk = false
    ∧ (decodeEvent (Json.object
        [("tag", Json.string "notificationPermissionChanged"),
         ("permission", Json.string "maybe")])).isOk = false := by
  refine ⟨?_, ?_, ?_, ?_⟩
  · obtain ⟨err, he⟩ := c10_decode_event_total_and_closed.2.2.2.1
      (Json.object [("tag", Json.string "bogus")]) "bogus" rfl (by decide)
    simp [he, Except.isOk, Except.toBool]
  · obtain ⟨err, he⟩ := c10_decode_event_total_and_closed.2.1 Json.null rfl
    simp [he, Except.isOk, Except.toBool]
  · obtain ⟨err, he⟩ := c10_decode_event_total_and_closed.2.2.1
      (Json.object [("tag", Json.number 7)]) (Json.number 7) rfl
      (fun s h => Json.noConfusion h)
    simp [he, Except.isOk, Except.toBool]
  · obtain ⟨err, he⟩ := c10_decode_event_total_and_closed.2.2.2.2
      [("tag", Json.string "notificationPermissionChanged"),
       ("permission", Json.string "maybe")]
      "maybe" rfl rfl (by decide)
    simp [he, Except.isOk, Except.toBool]

end ElmPwa
